import Mathlib

/-!
Shallow embedding of the scenyx-backend WebSocket hub (package ws, the
two-category Hub with DMClients and SceneClients) and of the in-memory DM
store (package memory).  Go channels are modelled as a capacity, a FIFO
buffer and a closed flag; operations that panic in Go (closing a closed
channel, a select send case on a closed channel) are modelled by returning
none.  Client pointer identity is modelled by a numeric id; the hub's two
Go maps are modelled as association lists from topic string to the list of
member ids (duplicate-free, since Go map keys are unique).
-/

namespace Scenyx

/-- A Go buffered channel of opaque payloads (payload modelled as Nat). -/
structure ChanState where
  cap : Nat
  buf : List Nat
  closed : Bool
  deriving DecidableEq

/-- ws.Client: pointer identity id, user id and the two routing keys. -/
structure Client where
  id : Nat
  userID : String
  dmID : String
  sceneID : String
  deriving DecidableEq

/-- ws.BroadcastMessage. -/
structure BroadcastMessage where
  dmID : String
  sceneID : String
  data : Nat
  deriving DecidableEq

/-- topic string -> member ids, modelling map[string]map[*Client]bool. -/
abbrev TopicMap := List (String × List Nat)

/-- ws.Hub state: the two topic maps plus every client's Send channel. -/
structure HubState where
  dmClients : TopicMap
  sceneClients : TopicMap
  chans : Nat → ChanState

/-- Go map lookup m[t] (with ok flag as Option). -/
def lookupTopic : TopicMap → String → Option (List Nat)
  | [], _ => none
  | (k, v) :: rest, t => if k = t then some v else lookupTopic rest t

/-- Go map assignment m[t] = v (update in place, or append a new key). -/
def setTopic : TopicMap → String → List Nat → TopicMap
  | [], t, v => [(t, v)]
  | (k, w) :: rest, t, v =>
      if k = t then (t, v) :: rest else (k, w) :: setTopic rest t v

/-- Boolean membership test for a topic map. -/
def isMember (m : TopicMap) (t : String) (id : Nat) : Bool :=
  match lookupTopic m t with
  | some mems => id ∈ mems
  | none => false

/-- delete(clients, client): remove an id from a member list. -/
def removeId : List Nat → Nat → List Nat
  | [], _ => []
  | x :: xs, id => if x = id then removeId xs id else x :: removeId xs id

/-- The duplicate-safe set insert h.XClients[t][id] = true, creating the
member set on first use (part_001 lines 53-66). -/
def addMember (m : TopicMap) (t : String) (id : Nat) : TopicMap :=
  match lookupTopic m t with
  | none => setTopic m t [id]
  | some mems => if id ∈ mems then m else setTopic m t (mems ++ [id])

/-- Pointwise update of the channel map. -/
def updateChan (f : Nat → ChanState) (id : Nat) (c : ChanState) : Nat → ChanState :=
  fun j => if j = id then c else f j

/-- close(ch): Go panics (none) if the channel is already closed. -/
def closeChan (c : ChanState) : Option ChanState :=
  if c.closed then none else some { c with closed := true }

/-- select \{ case ch <- v: ... default: ... \}: a send case on a closed
channel is ready and panics (none); otherwise it succeeds exactly when the
buffer has free capacity, and the default branch runs otherwise. -/
def trySend (c : ChanState) (v : Nat) : Option (Bool × ChanState) :=
  if c.closed then none
  else if c.buf.length < c.cap then some (true, { c with buf := c.buf ++ [v] })
  else some (false, c)

/-- select \{ case <-ch: ... default: ... \}: the receive is ready when a
buffered value is available (it is consumed, even on a closed channel) or
when the channel is closed and empty (zero value); otherwise default. -/
def tryRecv (c : ChanState) : Bool × ChanState :=
  match c.buf with
  | _ :: rest => (true, { c with buf := rest, closed := c.closed })
  | [] => if c.closed then (true, c) else (false, c)

/-- The Register case of Hub.Run (part_001 lines 51-67): add the client to
the DM member set if its DMID is non-empty and to the Scene member set if
its SceneID is non-empty.  Never panics. -/
def registerOp (h : HubState) (c : Client) : HubState :=
  let h1 :=
    if c.dmID ≠ "" then { h with dmClients := addMember h.dmClients c.dmID c.id }
    else h
  if c.sceneID ≠ "" then
    { h1 with sceneClients := addMember h1.sceneClients c.sceneID c.id }
  else h1

/-- The DM branch of the Unregister case (part_001 lines 71-79): if the
client is a member of its DM topic, delete it and close its Send channel
unconditionally.  none models the Go panic of closing a closed channel. -/
def unregDM (h : HubState) (c : Client) : Option HubState :=
  if c.dmID ≠ "" then
    match lookupTopic h.dmClients c.dmID with
    | some mems =>
        if c.id ∈ mems then
          match closeChan (h.chans c.id) with
          | none => none
          | some ch =>
              some { h with
                dmClients := setTopic h.dmClients c.dmID (removeId mems c.id),
                chans := updateChan h.chans c.id ch }
        else some h
    | none => some h
  else some h

/-- The Scene branch of the Unregister case (part_001 lines 80-98): if the
client is a member of its Scene topic, delete it, then run the
select-with-default receive the source uses as an already-closed check
before closing the channel. -/
def unregScene (h1 : HubState) (c : Client) : Option HubState :=
  if c.sceneID ≠ "" then
    match lookupTopic h1.sceneClients c.sceneID with
    | some mems =>
        if c.id ∈ mems then
          match tryRecv (h1.chans c.id) with
          | (true, ch) =>
              some { h1 with
                sceneClients := setTopic h1.sceneClients c.sceneID (removeId mems c.id),
                chans := updateChan h1.chans c.id ch }
          | (false, _) =>
              match closeChan (h1.chans c.id) with
              | none => none
              | some ch =>
                  some { h1 with
                    sceneClients := setTopic h1.sceneClients c.sceneID (removeId mems c.id),
                    chans := updateChan h1.chans c.id ch }
        else some h1
    | none => some h1
  else some h1

/-- The Unregister case of Hub.Run (part_001 lines 69-99): the DM branch
runs first, then the Scene branch. -/
def unregisterOp (h : HubState) (c : Client) : Option HubState :=
  match unregDM h c with
  | none => none
  | some h1 => unregScene h1 c

/-- The fan-out loop of the Broadcast case (part_001 lines 105-114 and
119-128): walk the member set, try a non-blocking send to each member; on
a full queue close the member's channel and delete it from the member set.
none models the panic of a select send case on a closed channel. -/
def sendLoop (data : Nat) : List Nat → (Nat → ChanState) → List Nat →
    Option ((Nat → ChanState) × List Nat)
  | [], chans, members => some (chans, members)
  | id :: rest, chans, members =>
      match trySend (chans id) data with
      | none => none
      | some (true, ch) => sendLoop data rest (updateChan chans id ch) members
      | some (false, _) =>
          match closeChan (chans id) with
          | none => none
          | some ch =>
              sendLoop data rest (updateChan chans id ch) (removeId members id)

/-- The DM half of the Broadcast case (part_001 lines 103-116): fan out to
the DM topic's members if DMID is non-empty; an unknown topic is skipped
silently. -/
def broadcastDM (h : HubState) (m : BroadcastMessage) : Option HubState :=
  if m.dmID ≠ "" then
    match lookupTopic h.dmClients m.dmID with
    | some mems =>
        match sendLoop m.data mems h.chans mems with
        | none => none
        | some (chans1, mems1) =>
            some { h with chans := chans1,
                          dmClients := setTopic h.dmClients m.dmID mems1 }
    | none => some h
  else some h

/-- The Scene half of the Broadcast case (part_001 lines 117-130). -/
def broadcastScene (h1 : HubState) (m : BroadcastMessage) : Option HubState :=
  if m.sceneID ≠ "" then
    match lookupTopic h1.sceneClients m.sceneID with
    | some mems =>
        match sendLoop m.data mems h1.chans mems with
        | none => none
        | some (chans1, mems1) =>
            some { h1 with chans := chans1,
                           sceneClients := setTopic h1.sceneClients m.sceneID mems1 }
    | none => some h1
  else some h1

/-- The Broadcast case of Hub.Run (part_001 lines 101-131): the DM half
runs first, then the Scene half. -/
def broadcastOp (h : HubState) (m : BroadcastMessage) : Option HubState :=
  match broadcastDM h m with
  | none => none
  | some h1 => broadcastScene h1 m

/-- Hub.GetActiveSceneUsersCount (part_001 lines 137-145). -/
def getActiveSceneUsersCount (h : HubState) (sceneID : String) : Nat :=
  match lookupTopic h.sceneClients sceneID with
  | some mems => mems.length
  | none => 0

/-- Which of the hub's RWMutex modes each handler acquires. -/
inductive LockMode where
  | rlock
  | wlock
  deriving DecidableEq

/-- part_001 line 52: the Register case takes h.mu.Lock(). -/
def registerLockMode : LockMode := LockMode.wlock

/-- part_001 line 70: the Unregister case takes h.mu.Lock(). -/
def unregisterLockMode : LockMode := LockMode.wlock

/-- part_001 line 102: the Broadcast case takes h.mu.RLock() only. -/
def broadcastLockMode : LockMode := LockMode.rlock

/-- part_001 line 138: GetActiveSceneUsersCount takes h.mu.RLock(). -/
def countLockMode : LockMode := LockMode.rlock

/-- One request consumed by the Hub.Run select loop. -/
inductive HubOp where
  | reg (c : Client)
  | unreg (c : Client)
  | bcast (m : BroadcastMessage)

/-- One iteration of the Hub.Run event loop. -/
def stepOp (h : HubState) : HubOp → Option HubState
  | HubOp.reg c => some (registerOp h c)
  | HubOp.unreg c => unregisterOp h c
  | HubOp.bcast m => broadcastOp h m

/-- A finite sequence of requests processed by the event loop; none as
soon as one of them panics. -/
def runOps (h : HubState) : List HubOp → Option HubState
  | [] => some h
  | op :: rest =>
      match stepOp h op with
      | none => none
      | some h1 => runOps h1 rest

/-- The hub produced by NewHub (both maps empty), with the given ambient
channel states for the clients that may later register. -/
def initHub (chans : Nat → ChanState) : HubState :=
  { dmClients := [], sceneClients := [], chans := chans }

/-- A sequence of Broadcast requests all targeted at DM topic t. -/
def runDispatches (h : HubState) (t : String) : List Nat → Option HubState
  | [] => some h
  | d :: rest =>
      match broadcastOp h { dmID := t, sceneID := "", data := d } with
      | none => none
      | some h1 => runDispatches h1 t rest

/-- A sequence of Broadcast requests all targeted at scene topic t. -/
def runSceneDispatches (h : HubState) (t : String) : List Nat → Option HubState
  | [] => some h
  | d :: rest =>
      match broadcastOp h { dmID := "", sceneID := t, data := d } with
      | none => none
      | some h1 => runSceneDispatches h1 t rest

/-- The member list the spec's counting property expects for one topic:
insert on Register if absent, remove on Unregister; Broadcast requests do
not occur in the sequences the claim quantifies over. -/
def stillRegistered : List HubOp → List Nat → List Nat
  | [], acc => acc
  | HubOp.reg c :: rest, acc =>
      stillRegistered rest (if c.id ∈ acc then acc else acc ++ [c.id])
  | HubOp.unreg c :: rest, acc => stillRegistered rest (removeId acc c.id)
  | HubOp.bcast _ :: rest, acc => stillRegistered rest acc

/-- An operation on a single scene topic t: a Register or Unregister of a
client carrying only that scene key. -/
def sceneOnlyOp (t : String) : HubOp → Prop
  | HubOp.reg c => c.sceneID = t ∧ c.dmID = ""
  | HubOp.unreg c => c.sceneID = t ∧ c.dmID = ""
  | HubOp.bcast _ => False

/-- The correspondence between a hub state and the expected member list of
one scene topic: either the topic key was never created and the expected
list is empty, or the key maps to exactly the expected list. -/
def sceneInv (t : String) (h : HubState) (acc : List Nat) : Prop :=
  (lookupTopic h.sceneClients t = none ∧ acc = []) ∨
    lookupTopic h.sceneClients t = some acc

/-! ## The in-memory DM store (package memory, part_004) -/

/-- models.DMMessage as populated by memory.DMStore.AddMessage. -/
structure DMMessage where
  id : String
  senderID : String
  content : String
  timestamp : Int
  deriving DecidableEq

/-- models.DMConversation. -/
structure DMConversation where
  id : String
  participants : String × String
  messages : List DMMessage
  deriving DecidableEq

/-- memory.DMStore: dmID -> conversation, userID -> dmIDs. -/
structure DMStoreState where
  conversations : List (String × DMConversation)
  userIndex : List (String × List String)
  deriving DecidableEq

/-- Go map lookup on the conversations map. -/
def lookupConv : List (String × DMConversation) → String → Option DMConversation
  | [], _ => none
  | (k, v) :: rest, t => if k = t then some v else lookupConv rest t

/-- Go map assignment on the conversations map. -/
def setConv : List (String × DMConversation) → String → DMConversation →
    List (String × DMConversation)
  | [], t, v => [(t, v)]
  | (k, w) :: rest, t, v =>
      if k = t then (t, v) :: rest else (k, w) :: setConv rest t v

/-- memory.DMStore.AddMessage (part_004 lines 58-72): build the message
(fresh uuid and current time passed in as freshID and now), append it to
the conversation only if the dmID is present, and return the message
either way. -/
def addMessage (s : DMStoreState) (dmID senderID content freshID : String)
    (now : Int) : DMStoreState × DMMessage :=
  let msg : DMMessage :=
    { id := freshID, senderID := senderID, content := content, timestamp := now }
  match lookupConv s.conversations dmID with
  | some conv =>
      ({ s with conversations :=
          setConv s.conversations dmID { conv with messages := conv.messages ++ [msg] } },
       msg)
  | none => (s, msg)

/-- memory.DMStore.GetMessages (part_004 lines 74-81); the nil slice
returned for an unknown dmID is the empty list. -/
def getMessages (s : DMStoreState) (dmID : String) : List DMMessage :=
  match lookupConv s.conversations dmID with
  | some conv => conv.messages
  | none => []

/-- DMHandler.SendMessage (the send handler wired to the memory store by
cmd/main.go): store via AddMessage, then reply with the returned message
and broadcast it, paired with the request's dmID, to the hub. -/
def sendMessage (s : DMStoreState) (dmID senderID content freshID : String)
    (now : Int) : DMStoreState × DMMessage × (String × DMMessage) :=
  let r := addMessage s dmID senderID content freshID now
  (r.1, r.2, (dmID, r.2))

/-! ## Concrete states used to instantiate the claim theorems -/

/-- Channels for the C2 scenario: one undelivered buffered item. -/
def chansC2 : Nat → ChanState := fun _ =>
  { cap := 2, buf := [7], closed := false }

/-- A hub whose client 3 belongs only to scene topic s. -/
def hubC2 : HubState :=
  { dmClients := [], sceneClients := [("s", [3])], chans := chansC2 }

/-- The scene-only client of the C2 scenario. -/
def clientC2 : Client := { id := 3, userID := "u3", dmID := "", sceneID := "s" }

/-- Channels for the C3 scenario: client 1 has a zero-capacity queue. -/
def chansC3 : Nat → ChanState := fun j =>
  if j = 1 then { cap := 0, buf := [], closed := false }
  else { cap := 4, buf := [], closed := false }

/-- A client of both DM topic d and scene topic s. -/
def clientC3a : Client := { id := 1, userID := "u1", dmID := "d", sceneID := "s" }

/-- A client of DM topic d only. -/
def clientC3b : Client := { id := 2, userID := "u2", dmID := "d", sceneID := "" }

/-- Register both clients, saturate client 1 out of scene s (closing its
queue), then dispatch to DM topic d, whose member set still holds 1. -/
def opsC3 : List HubOp :=
  [HubOp.reg clientC3a, HubOp.reg clientC3b,
   HubOp.bcast { dmID := "", sceneID := "s", data := 1 },
   HubOp.bcast { dmID := "d", sceneID := "", data := 2 }]

/-- Channels for the C4 scenario: a zero-capacity (always full) queue. -/
def chansC4 : Nat → ChanState := fun _ => { cap := 0, buf := [], closed := false }

/-- A hub whose scene topic s has a single saturated member. -/
def hubC4 : HubState :=
  { dmClients := [], sceneClients := [("s", [1])], chans := chansC4 }

/-- A broadcast to scene topic s. -/
def msgC4 : BroadcastMessage := { dmID := "", sceneID := "s", data := 1 }

/-- Ambient channels for the C5 witness run. -/
def chansW5 : Nat → ChanState := fun _ => { cap := 2, buf := [], closed := false }

/-- Register 1 and 2 under scene s, then unregister 1. -/
def opsW5 : List HubOp :=
  [HubOp.reg { id := 1, userID := "u1", dmID := "", sceneID := "s" },
   HubOp.reg { id := 2, userID := "u2", dmID := "", sceneID := "s" },
   HubOp.unreg { id := 1, userID := "u1", dmID := "", sceneID := "s" }]

/-- The empty hub used by the C6 witness. -/
def hubW6 : HubState := initHub (fun _ => { cap := 1, buf := [], closed := false })

/-- A client carrying both a DM key and a scene key. -/
def clientW6 : Client := { id := 1, userID := "u", dmID := "d", sceneID := "s" }

/-- Channels for the C7 witness: capacity 3, initially empty. -/
def chansC7 : Nat → ChanState := fun _ => { cap := 3, buf := [], closed := false }

/-- A hub whose DM topic d has the single subscriber 1. -/
def hubC7 : HubState :=
  { dmClients := [("d", [1])], sceneClients := [], chans := chansC7 }

/-- The hub state after dispatching 4 then 5 to DM topic d of hubC7. -/
def hubC7r : HubState :=
  { dmClients := [("d", [1])], sceneClients := [],
    chans := updateChan (updateChan chansC7 1 { cap := 3, buf := [4], closed := false })
      1 { cap := 3, buf := [4, 5], closed := false } }

/-- A hub whose scene topic s has the single subscriber 1. -/
def hubC7s : HubState :=
  { dmClients := [], sceneClients := [("s", [1])], chans := chansC7 }

/-- The hub state after dispatching 4 then 5 to scene topic s of hubC7s. -/
def hubC7sr : HubState :=
  { dmClients := [], sceneClients := [("s", [1])],
    chans := updateChan (updateChan chansC7 1 { cap := 3, buf := [4], closed := false })
      1 { cap := 3, buf := [4, 5], closed := false } }

/-- A hub with an empty member set under DM topic d and no scene topics. -/
def hubW8 : HubState :=
  { dmClients := [("d", [])], sceneClients := [],
    chans := fun _ => { cap := 1, buf := [], closed := false } }

/-- A broadcast to the empty DM topic d and the unknown scene topic z. -/
def msgW8 : BroadcastMessage := { dmID := "d", sceneID := "z", data := 9 }

/-- Ambient channels for the C9 witness. -/
def chansC9 : Nat → ChanState := fun _ => { cap := 2, buf := [], closed := false }

/-- A hub with DM topic d and scene topic s each holding member 1. -/
def hubC9 : HubState :=
  { dmClients := [("d", [1])], sceneClients := [("s", [1])], chans := chansC9 }

/-- The scene-only client unregistered in the C9 witness. -/
def clientC9 : Client := { id := 1, userID := "u1", dmID := "", sceneID := "s" }

/-- The hub state after unregistering clientC9 from hubC9: the scene key s
survives with an empty member set. -/
def hubC9r : HubState :=
  { dmClients := [("d", [1])], sceneClients := [("s", [])],
    chans := updateChan chansC9 1 { cap := 2, buf := [], closed := true } }

/-- The empty in-memory DM store. -/
def storeC10 : DMStoreState := { conversations := [], userIndex := [] }

/-! ## Basic lemmas about the topic maps and member lists -/

theorem lookup_setTopic_self (m : TopicMap) (t : String) (v : List Nat) :
    lookupTopic (setTopic m t v) t = some v := by
  induction m with
  | nil => simp [setTopic, lookupTopic]
  | cons p rest ih =>
      obtain ⟨k, w⟩ := p
      by_cases hk : k = t
      · simp [setTopic, hk, lookupTopic]
      · simp [setTopic, hk, lookupTopic, ih]

theorem lookup_setTopic_ne (m : TopicMap) (s t : String) (v : List Nat)
    (hst : s ≠ t) : lookupTopic (setTopic m s v) t = lookupTopic m t := by
  induction m with
  | nil => simp [setTopic, lookupTopic, hst]
  | cons p rest ih =>
      obtain ⟨k, w⟩ := p
      by_cases hk : k = s
      · subst hk
        simp [setTopic, lookupTopic, hst, Ne.symm hst]
      · by_cases hkt : k = t <;>
          simp [setTopic, lookupTopic, hk, hkt, ih, Ne.symm hst]

theorem lookup_setTopic_isSome (m : TopicMap) (s t : String) (v : List Nat)
    (h : (lookupTopic m t).isSome) :
    (lookupTopic (setTopic m s v) t).isSome := by
  by_cases hst : s = t
  · subst hst
    rw [lookup_setTopic_self]
    rfl
  · rw [lookup_setTopic_ne m s t v hst]
    exact h

theorem setTopic_lookup_eq_self (m : TopicMap) (t : String) (v : List Nat)
    (h : lookupTopic m t = some v) : setTopic m t v = m := by
  induction m with
  | nil => simp [lookupTopic] at h
  | cons p rest ih =>
      obtain ⟨k, w⟩ := p
      by_cases hk : k = t
      · subst hk
        simp [lookupTopic] at h
        simp [setTopic, h]
      · simp [lookupTopic, hk] at h
        simp [setTopic, hk, ih h]

theorem lookup_addMember_isSome (m : TopicMap) (s t : String) (id : Nat)
    (h : (lookupTopic m t).isSome) :
    (lookupTopic (addMember m s id) t).isSome := by
  unfold addMember
  cases hlk : lookupTopic m s with
  | none => exact lookup_setTopic_isSome m s t [id] h
  | some mems =>
      by_cases hm : id ∈ mems
      · simpa [hm] using h
      · simpa [hm] using lookup_setTopic_isSome m s t (mems ++ [id]) h

theorem mem_removeId {l : List Nat} {id x : Nat} :
    x ∈ removeId l id ↔ x ∈ l ∧ x ≠ id := by
  induction l with
  | nil => simp [removeId]
  | cons a as ih =>
      by_cases ha : a = id
      · simp only [removeId]
        rw [if_pos ha, ih]
        constructor
        · rintro ⟨hx, hne⟩
          exact ⟨List.mem_cons_of_mem a hx, hne⟩
        · rintro ⟨hx, hne⟩
          rcases List.mem_cons.mp hx with h1 | h1
          · exact absurd (h1.trans ha) hne
          · exact ⟨h1, hne⟩
      · simp only [removeId]
        rw [if_neg ha]
        constructor
        · intro hx
          rcases List.mem_cons.mp hx with h1 | h1
          · exact ⟨List.mem_cons.mpr (Or.inl h1),
              fun hxi => ha (h1.symm.trans hxi)⟩
          · have hh := ih.mp h1
            exact ⟨List.mem_cons.mpr (Or.inr hh.1), hh.2⟩
        · rintro ⟨hx, hne⟩
          rcases List.mem_cons.mp hx with h1 | h1
          · exact List.mem_cons.mpr (Or.inl h1)
          · exact List.mem_cons.mpr (Or.inr (ih.mpr ⟨h1, hne⟩))

theorem not_mem_removeId_self (l : List Nat) (id : Nat) :
    id ∉ removeId l id := by
  simp [mem_removeId]

theorem removeId_eq_self {l : List Nat} {id : Nat} (h : id ∉ l) :
    removeId l id = l := by
  induction l with
  | nil => rfl
  | cons a as ih =>
      simp only [List.mem_cons, not_or] at h
      have ha : ¬a = id := fun heq => h.1 heq.symm
      simp [removeId, ha, ih h.2]

theorem removeId_nodup {l : List Nat} {id : Nat} (h : l.Nodup) :
    (removeId l id).Nodup := by
  induction l with
  | nil => exact List.nodup_nil
  | cons a as ih =>
      rw [List.nodup_cons] at h
      by_cases ha : a = id
      · simpa [removeId, ha] using ih h.2
      · simp only [removeId]
        rw [if_neg ha, List.nodup_cons]
        exact ⟨fun hx => h.1 (mem_removeId.mp hx).1, ih h.2⟩

theorem mem_addMember_self (m : TopicMap) (t : String) (id : Nat) :
    isMember (addMember m t id) t id = true := by
  unfold addMember
  cases hlk : lookupTopic m t with
  | none => simp [isMember, lookup_setTopic_self]
  | some mems =>
      by_cases hm : id ∈ mems
      · simp [isMember, hlk, hm]
      · simp [hm, isMember, lookup_setTopic_self]

theorem addMember_idem (m : TopicMap) (t : String) (id : Nat) :
    addMember (addMember m t id) t id = addMember m t id := by
  unfold addMember
  cases hlk : lookupTopic m t with
  | none => simp [lookup_setTopic_self]
  | some mems =>
      by_cases hm : id ∈ mems
      · simp [hlk, hm]
      · simp [hm, lookup_setTopic_self]

/-! ## Lemmas about the channel primitives -/

theorem trySend_true {c : ChanState} {d : Nat} {ch : ChanState}
    (h : trySend c d = some (true, ch)) :
    c.closed = false ∧ c.buf.length < c.cap ∧
      ch = { c with buf := c.buf ++ [d] } := by
  unfold trySend at h
  split at h
  · exact Option.noConfusion h
  · next hc =>
      split at h
      · next hlen =>
          simp only [Option.some.injEq, Prod.mk.injEq] at h
          exact ⟨by simpa using hc, hlen, h.2.symm⟩
      · simp at h

theorem trySend_false {c : ChanState} {d : Nat} {ch : ChanState}
    (h : trySend c d = some (false, ch)) :
    c.closed = false ∧ ¬c.buf.length < c.cap := by
  unfold trySend at h
  split at h
  · exact Option.noConfusion h
  · next hc =>
      split at h
      · simp at h
      · next hlen => exact ⟨by simpa using hc, hlen⟩

theorem closeChan_open {c : ChanState} (h : c.closed = false) :
    closeChan c = some { c with closed := true } := by
  simp [closeChan, h]

theorem closeChan_some {c : ChanState} {ch : ChanState}
    (h : closeChan c = some ch) :
    c.closed = false ∧ ch = { c with closed := true } := by
  unfold closeChan at h
  split at h
  · exact Option.noConfusion h
  · next hc =>
      simp only [Option.some.injEq] at h
      exact ⟨by simpa using hc, h.symm⟩

/-! ## Lemmas about the broadcast fan-out loop -/

theorem sendLoop_untouched {d : Nat} {p : List Nat} {chans : Nat → ChanState}
    {members : List Nat} {chans' : Nat → ChanState} {members' : List Nat}
    {id : Nat}
    (hrun : sendLoop d p chans members = some (chans', members'))
    (hid : id ∉ p) :
    chans' id = chans id ∧ (id ∈ members' ↔ id ∈ members) := by
  induction p generalizing chans members with
  | nil =>
      simp only [sendLoop, Option.some.injEq, Prod.mk.injEq] at hrun
      rw [← hrun.1, ← hrun.2]
      exact ⟨rfl, Iff.rfl⟩
  | cons a rest ih =>
      simp only [List.mem_cons, not_or] at hid
      obtain ⟨hida, hidrest⟩ := hid
      simp only [sendLoop] at hrun
      split at hrun
      · exact Option.noConfusion hrun
      · next ch hts =>
          have hres := ih hrun hidrest
          refine ⟨?_, hres.2⟩
          rw [hres.1]
          simp only [updateChan]
          rw [if_neg hida]
      · next ch hts =>
          split at hrun
          · exact Option.noConfusion hrun
          · next ch2 hcl =>
              have hres := ih hrun hidrest
              constructor
              · rw [hres.1]
                simp only [updateChan]
                rw [if_neg hida]
              · rw [hres.2, mem_removeId]
                exact ⟨fun hx => hx.1, fun hx => ⟨hx, hida⟩⟩

theorem sendLoop_mem_sub {d : Nat} {p : List Nat} {chans : Nat → ChanState}
    {members : List Nat} {chans' : Nat → ChanState} {members' : List Nat}
    {id : Nat}
    (hrun : sendLoop d p chans members = some (chans', members'))
    (hm : id ∈ members') : id ∈ members := by
  induction p generalizing chans members with
  | nil =>
      simp only [sendLoop, Option.some.injEq, Prod.mk.injEq] at hrun
      rw [hrun.2]
      exact hm
  | cons a rest ih =>
      simp only [sendLoop] at hrun
      split at hrun
      · exact Option.noConfusion hrun
      · next ch hts => exact ih hrun
      · next ch hts =>
          split at hrun
          · exact Option.noConfusion hrun
          · next ch2 hcl => exact (mem_removeId.mp (ih hrun)).1

theorem sendLoop_nodup {d : Nat} {p : List Nat} {chans : Nat → ChanState}
    {members : List Nat} {chans' : Nat → ChanState} {members' : List Nat}
    (hrun : sendLoop d p chans members = some (chans', members'))
    (hnd : members.Nodup) : members'.Nodup := by
  induction p generalizing chans members with
  | nil =>
      simp only [sendLoop, Option.some.injEq, Prod.mk.injEq] at hrun
      rw [← hrun.2]
      exact hnd
  | cons a rest ih =>
      simp only [sendLoop] at hrun
      split at hrun
      · exact Option.noConfusion hrun
      · next ch hts => exact ih hrun hnd
      · next ch hts =>
          split at hrun
          · exact Option.noConfusion hrun
          · next ch2 hcl => exact ih hrun (removeId_nodup hnd)

theorem sendLoop_live {d : Nat} {p : List Nat} {chans : Nat → ChanState}
    {members : List Nat} {chans' : Nat → ChanState} {members' : List Nat}
    {id : Nat}
    (hnd : p.Nodup) (hrun : sendLoop d p chans members = some (chans', members'))
    (hp : id ∈ p) (hm : id ∈ members') :
    chans' id = { chans id with buf := (chans id).buf ++ [d] } := by
  induction p generalizing chans members with
  | nil => exact absurd hp (List.not_mem_nil id)
  | cons a rest ih =>
      rw [List.nodup_cons] at hnd
      simp only [sendLoop] at hrun
      rcases List.mem_cons.mp hp with rfl | hidr
      · split at hrun
        · exact Option.noConfusion hrun
        · next ch hts =>
            obtain ⟨_, _, hch⟩ := trySend_true hts
            have hres := sendLoop_untouched hrun hnd.1
            rw [hres.1]
            simp [updateChan, hch]
        · next ch hts =>
            split at hrun
            · exact Option.noConfusion hrun
            · next ch2 hcl =>
                have hres := sendLoop_untouched hrun hnd.1
                rw [hres.2] at hm
                exact absurd hm (not_mem_removeId_self members id)
      · have hne : id ≠ a := fun hx => hnd.1 (hx ▸ hidr)
        split at hrun
        · exact Option.noConfusion hrun
        · next ch hts =>
            have hrec := ih hnd.2 hrun hidr
            rw [hrec]
            simp only [updateChan]
            rw [if_neg hne]
        · next ch hts =>
            split at hrun
            · exact Option.noConfusion hrun
            · next ch2 hcl =>
                have hrec := ih hnd.2 hrun hidr
                rw [hrec]
                simp only [updateChan]
                rw [if_neg hne]

theorem registerOp_dmClients (h : HubState) (c : Client) :
    (registerOp h c).dmClients =
      if c.dmID = "" then h.dmClients else addMember h.dmClients c.dmID c.id := by
  by_cases hd : c.dmID = "" <;> by_cases hs : c.sceneID = "" <;>
    simp [registerOp, hd, hs]

theorem registerOp_sceneClients (h : HubState) (c : Client) :
    (registerOp h c).sceneClients =
      if c.sceneID = "" then h.sceneClients
      else addMember h.sceneClients c.sceneID c.id := by
  by_cases hd : c.dmID = "" <;> by_cases hs : c.sceneID = "" <;>
    simp [registerOp, hd, hs]

theorem registerOp_chans (h : HubState) (c : Client) :
    (registerOp h c).chans = h.chans := by
  by_cases hd : c.dmID = "" <;> by_cases hs : c.sceneID = "" <;>
    simp [registerOp, hd, hs]

theorem registerOp_idem (h : HubState) (c : Client) :
    registerOp (registerOp h c) c = registerOp h c := by
  cases h with
  | mk dm sc ch =>
      by_cases hd : c.dmID = "" <;> by_cases hs : c.sceneID = "" <;>
        simp [registerOp, hd, hs, addMember_idem]

theorem tryRecv_false {c : ChanState} {ch : ChanState}
    (h : tryRecv c = (false, ch)) : c.closed = false := by
  unfold tryRecv at h
  split at h
  · exact absurd (congrArg Prod.fst h) (by simp)
  · split at h
    · exact absurd (congrArg Prod.fst h) (by simp)
    · next hc =>
        cases hcc : c.closed with
        | false => rfl
        | true => exact absurd hcc (by simpa using hc)

theorem unregDM_skip {h : HubState} {c : Client} (hd : c.dmID = "") :
    unregDM h c = some h := by
  simp [unregDM, hd]

theorem unregScene_none {h1 : HubState} {c : Client}
    (hlk : lookupTopic h1.sceneClients c.sceneID = none) :
    unregScene h1 c = some h1 := by
  by_cases hs : c.sceneID = "" <;> simp [unregScene, hs, hlk]

theorem unregScene_notMem {h1 : HubState} {c : Client} {mems : List Nat}
    (hlk : lookupTopic h1.sceneClients c.sceneID = some mems)
    (hm : c.id ∉ mems) :
    unregScene h1 c = some h1 := by
  by_cases hs : c.sceneID = "" <;> simp [unregScene, hs, hlk, hm]

theorem unregScene_mem {h1 : HubState} {c : Client} {mems : List Nat}
    (hs : c.sceneID ≠ "")
    (hlk : lookupTopic h1.sceneClients c.sceneID = some mems)
    (hm : c.id ∈ mems) :
    ∃ ch', unregScene h1 c = some { h1 with
      sceneClients := setTopic h1.sceneClients c.sceneID (removeId mems c.id),
      chans := updateChan h1.chans c.id ch' } := by
  cases htr : tryRecv (h1.chans c.id) with
  | mk ok ch =>
      cases ok with
      | true =>
          refine ⟨ch, ?_⟩
          simp [unregScene, hs, hlk, hm, htr]
      | false =>
          have hcl : (h1.chans c.id).closed = false := tryRecv_false htr
          refine ⟨{ h1.chans c.id with closed := true }, ?_⟩
          simp [unregScene, hs, hlk, hm, htr, closeChan_open hcl]

theorem unregDM_shape {h : HubState} {c : Client} {h' : HubState}
    (hu : unregDM h c = some h') :
    (h'.dmClients = h.dmClients ∨
      ∃ t v, h'.dmClients = setTopic h.dmClients t v) ∧
    h'.sceneClients = h.sceneClients := by
  unfold unregDM at hu
  split at hu
  · split at hu
    · next mems hlk =>
        split at hu
        · split at hu
          · exact Option.noConfusion hu
          · next ch hcl =>
              injection hu with hu
              subst hu
              exact ⟨Or.inr ⟨_, _, rfl⟩, rfl⟩
        · injection hu with hu
          subst hu
          exact ⟨Or.inl rfl, rfl⟩
    · injection hu with hu
      subst hu
      exact ⟨Or.inl rfl, rfl⟩
  · injection hu with hu
    subst hu
    exact ⟨Or.inl rfl, rfl⟩

theorem unregScene_shape {h1 : HubState} {c : Client} {h' : HubState}
    (hu : unregScene h1 c = some h') :
    h'.dmClients = h1.dmClients ∧
    (h'.sceneClients = h1.sceneClients ∨
      ∃ t v, h'.sceneClients = setTopic h1.sceneClients t v) := by
  unfold unregScene at hu
  split at hu
  · split at hu
    · next mems hlk =>
        split at hu
        · split at hu
          · next ch htr =>
              injection hu with hu
              subst hu
              exact ⟨rfl, Or.inr ⟨_, _, rfl⟩⟩
          · next ch htr =>
              split at hu
              · exact Option.noConfusion hu
              · next ch2 hcl =>
                  injection hu with hu
                  subst hu
                  exact ⟨rfl, Or.inr ⟨_, _, rfl⟩⟩
        · injection hu with hu
          subst hu
          exact ⟨rfl, Or.inl rfl⟩
    · injection hu with hu
      subst hu
      exact ⟨rfl, Or.inl rfl⟩
  · injection hu with hu
    subst hu
    exact ⟨rfl, Or.inl rfl⟩

theorem broadcastDM_shape {h : HubState} {m : BroadcastMessage} {h' : HubState}
    (hb : broadcastDM h m = some h') :
    (h'.dmClients = h.dmClients ∨
      ∃ t v, h'.dmClients = setTopic h.dmClients t v) ∧
    h'.sceneClients = h.sceneClients := by
  unfold broadcastDM at hb
  split at hb
  · split at hb
    · next mems hlk =>
        split at hb
        · exact Option.noConfusion hb
        · next chans1 mems1 hsl =>
            injection hb with hb
            subst hb
            exact ⟨Or.inr ⟨_, _, rfl⟩, rfl⟩
    · injection hb with hb
      subst hb
      exact ⟨Or.inl rfl, rfl⟩
  · injection hb with hb
    subst hb
    exact ⟨Or.inl rfl, rfl⟩

theorem broadcastScene_shape {h1 : HubState} {m : BroadcastMessage}
    {h' : HubState} (hb : broadcastScene h1 m = some h') :
    h'.dmClients = h1.dmClients ∧
    (h'.sceneClients = h1.sceneClients ∨
      ∃ t v, h'.sceneClients = setTopic h1.sceneClients t v) := by
  unfold broadcastScene at hb
  split at hb
  · split at hb
    · next mems hlk =>
        split at hb
        · exact Option.noConfusion hb
        · next chans1 mems1 hsl =>
            injection hb with hb
            subst hb
            exact ⟨rfl, Or.inr ⟨_, _, rfl⟩⟩
    · injection hb with hb
      subst hb
      exact ⟨rfl, Or.inl rfl⟩
  · injection hb with hb
    subst hb
    exact ⟨rfl, Or.inl rfl⟩

theorem broadcastScene_skip {h1 : HubState} {m : BroadcastMessage}
    (hs : m.sceneID = "") : broadcastScene h1 m = some h1 := by
  simp [broadcastScene, hs]

theorem broadcastDM_skip {h : HubState} {m : BroadcastMessage}
    (hd : m.dmID = "") : broadcastDM h m = some h := by
  simp [broadcastDM, hd]

theorem isMember_some {m : TopicMap} {t : String} {id : Nat} {mems : List Nat}
    (hlk : lookupTopic m t = some mems) :
    isMember m t id = true ↔ id ∈ mems := by
  simp [isMember, hlk]

theorem keys_mono {m m2 : TopicMap}
    (hshape : m2 = m ∨ ∃ t v, m2 = setTopic m t v) (t : String)
    (hk : (lookupTopic m t).isSome) : (lookupTopic m2 t).isSome := by
  rcases hshape with rfl | ⟨s, v, rfl⟩
  · exact hk
  · exact lookup_setTopic_isSome m s t v hk

/-- Every step of the Hub.Run loop only ever rewrites existing topic keys
or adds new ones: a topic key present before a step is present after it. -/
theorem stepOp_keys {h : HubState} {op : HubOp} {h' : HubState}
    (hstep : stepOp h op = some h') (t : String) :
    ((lookupTopic h.dmClients t).isSome → (lookupTopic h'.dmClients t).isSome) ∧
    ((lookupTopic h.sceneClients t).isSome →
      (lookupTopic h'.sceneClients t).isSome) := by
  cases op with
  | reg c =>
      simp only [stepOp, Option.some.injEq] at hstep
      subst hstep
      constructor
      · intro hk
        rw [registerOp_dmClients]
        split
        · exact hk
        · exact lookup_addMember_isSome _ _ _ _ hk
      · intro hk
        rw [registerOp_sceneClients]
        split
        · exact hk
        · exact lookup_addMember_isSome _ _ _ _ hk
  | unreg c =>
      simp only [stepOp] at hstep
      unfold unregisterOp at hstep
      cases hdm : unregDM h c with
      | none => rw [hdm] at hstep; exact Option.noConfusion hstep
      | some h1 =>
          rw [hdm] at hstep
          have s1 := unregDM_shape hdm
          have s2 := unregScene_shape hstep
          constructor
          · intro hk
            rw [s2.1]
            exact keys_mono s1.1 t hk
          · intro hk
            refine keys_mono s2.2 t ?_
            rw [s1.2]
            exact hk
  | bcast m =>
      simp only [stepOp] at hstep
      unfold broadcastOp at hstep
      cases hdm : broadcastDM h m with
      | none => rw [hdm] at hstep; exact Option.noConfusion hstep
      | some h1 =>
          rw [hdm] at hstep
          have s1 := broadcastDM_shape hdm
          have s2 := broadcastScene_shape hstep
          constructor
          · intro hk
            rw [s2.1]
            exact keys_mono s1.1 t hk
          · intro hk
            refine keys_mono s2.2 t ?_
            rw [s1.2]
            exact hk

/-! ## The counting invariant for a single scene topic (claim C5) -/

theorem reg_step_inv {t : String} {h : HubState} {acc : List Nat} {c : Client}
    (ht : t ≠ "") (hc : c.sceneID = t)
    (hinv : sceneInv t h acc) :
    sceneInv t (registerOp h c)
      (if c.id ∈ acc then acc else acc ++ [c.id]) := by
  have hs : (registerOp h c).sceneClients = addMember h.sceneClients t c.id := by
    rw [registerOp_sceneClients, hc, if_neg ht]
  rcases hinv with ⟨hnone, rfl⟩ | hsome
  · right
    rw [hs]
    unfold addMember
    rw [hnone]
    simp [lookup_setTopic_self]
  · right
    rw [hs]
    unfold addMember
    rw [hsome]
    by_cases hm : c.id ∈ acc
    · simp [hm, hsome]
    · simp [hm, lookup_setTopic_self]

theorem unreg_step_inv {t : String} {h : HubState} {acc : List Nat} {c : Client}
    (ht : t ≠ "") (hc : c.sceneID = t) (hd : c.dmID = "")
    (hinv : sceneInv t h acc) :
    ∃ h', unregisterOp h c = some h' ∧ sceneInv t h' (removeId acc c.id) := by
  have hdm : unregDM h c = some h := unregDM_skip hd
  have hs : c.sceneID ≠ "" := by rw [hc]; exact ht
  rcases hinv with ⟨hnone, rfl⟩ | hsome
  · refine ⟨h, ?_, Or.inl ⟨hnone, rfl⟩⟩
    unfold unregisterOp
    rw [hdm]
    exact unregScene_none (by rw [hc]; exact hnone)
  · by_cases hm : c.id ∈ acc
    · obtain ⟨ch', heq⟩ :=
        unregScene_mem hs (by rw [hc]; exact hsome) hm
      refine ⟨{ h with
          sceneClients := setTopic h.sceneClients c.sceneID (removeId acc c.id),
          chans := updateChan h.chans c.id ch' }, ?_, Or.inr ?_⟩
      · unfold unregisterOp
        rw [hdm]
        exact heq
      · simp only [hc, lookup_setTopic_self]
    · refine ⟨h, ?_, Or.inr ?_⟩
      · unfold unregisterOp
        rw [hdm]
        exact unregScene_notMem (by rw [hc]; exact hsome) hm
      · rw [removeId_eq_self hm]
        exact hsome

theorem runOps_scene_count {t : String} (ht : t ≠ "") :
    ∀ (ops : List HubOp) (h : HubState) (acc : List Nat),
      (∀ op ∈ ops, sceneOnlyOp t op) → sceneInv t h acc →
      ∃ h', runOps h ops = some h' ∧
        sceneInv t h' (stillRegistered ops acc) := by
  intro ops
  induction ops with
  | nil => exact fun h acc _ hinv => ⟨h, rfl, hinv⟩
  | cons op rest ih =>
      intro h acc hall hinv
      have hop := hall op (List.mem_cons_self op rest)
      have hrest := fun o ho => hall o (List.mem_cons_of_mem op ho)
      cases op with
      | reg c =>
          obtain ⟨hc, _⟩ := hop
          have hinv1 := reg_step_inv ht hc hinv
          obtain ⟨h', hrun, hfin⟩ := ih (registerOp h c) _ hrest hinv1
          refine ⟨h', ?_, by simpa [stillRegistered] using hfin⟩
          simp only [runOps, stepOp]
          exact hrun
      | unreg c =>
          obtain ⟨hc, hd⟩ := hop
          obtain ⟨h1, hueq, hinv1⟩ := unreg_step_inv ht hc hd hinv
          obtain ⟨h', hrun, hfin⟩ := ih h1 _ hrest hinv1
          refine ⟨h', ?_, by simpa [stillRegistered] using hfin⟩
          simp only [runOps, stepOp, hueq]
          exact hrun
      | bcast m => exact hop.elim

/-! ## Ordering of dispatched payloads (claim C7) -/

theorem bcastDM_live {h : HubState} {t : String} {d : Nat} {h1 : HubState}
    {id : Nat}
    (ht : t ≠ "")
    (hwf : ((lookupTopic h.dmClients t).getD []).Nodup)
    (hb : broadcastOp h { dmID := t, sceneID := "", data := d } = some h1)
    (hmem : isMember h1.dmClients t id = true) :
    isMember h.dmClients t id = true ∧
    (h1.chans id).buf = (h.chans id).buf ++ [d] ∧
    ((lookupTopic h1.dmClients t).getD []).Nodup := by
  unfold broadcastOp at hb
  cases hdm : broadcastDM h { dmID := t, sceneID := "", data := d } with
  | none => rw [hdm] at hb; exact Option.noConfusion hb
  | some h2 =>
      simp only [hdm] at hb
      rw [broadcastScene_skip rfl] at hb
      injection hb with hb
      subst hb
      unfold broadcastDM at hdm
      rw [if_pos (by simpa using ht)] at hdm
      cases hlk : lookupTopic h.dmClients t with
      | none =>
          rw [hlk] at hdm
          dsimp only at hdm
          injection hdm with hdm
          subst hdm
          simp [isMember, hlk] at hmem
      | some mems =>
          rw [hlk] at hdm
          dsimp only at hdm
          rw [hlk] at hwf
          simp only [Option.getD_some] at hwf
          cases hsl : sendLoop d mems h.chans mems with
          | none =>
              rw [hsl] at hdm
              exact Option.noConfusion hdm
          | some r =>
              obtain ⟨chans1, mems1⟩ := r
              rw [hsl] at hdm
              dsimp only at hdm
              injection hdm with hdm
              subst hdm
              have hm1 : id ∈ mems1 := by
                have := @isMember_some (setTopic h.dmClients t mems1) t id
                  mems1 (lookup_setTopic_self h.dmClients t mems1)
                simpa [this] using hmem
              have hm0 : id ∈ mems := sendLoop_mem_sub hsl hm1
              refine ⟨(isMember_some hlk).mpr hm0, ?_, ?_⟩
              · have := sendLoop_live hwf hsl hm0 hm1
                simp [this]
              · simp only [lookup_setTopic_self, Option.getD_some]
                exact sendLoop_nodup hsl hwf

theorem bcastDM_wf {h : HubState} {t : String} {d : Nat} {h1 : HubState}
    (hwf : ((lookupTopic h.dmClients t).getD []).Nodup)
    (hb : broadcastOp h { dmID := t, sceneID := "", data := d } = some h1) :
    ((lookupTopic h1.dmClients t).getD []).Nodup := by
  unfold broadcastOp at hb
  cases hdm : broadcastDM h { dmID := t, sceneID := "", data := d } with
  | none => rw [hdm] at hb; exact Option.noConfusion hb
  | some h2 =>
      simp only [hdm] at hb
      rw [broadcastScene_skip rfl] at hb
      injection hb with hb
      subst hb
      unfold broadcastDM at hdm
      by_cases ht : t = ""
      · rw [if_neg (by simpa using ht)] at hdm
        injection hdm with hdm
        subst hdm
        exact hwf
      · rw [if_pos (by simpa using ht)] at hdm
        cases hlk : lookupTopic h.dmClients t with
        | none =>
            rw [hlk] at hdm
            dsimp only at hdm
            injection hdm with hdm
            subst hdm
            exact hwf
        | some mems =>
            rw [hlk] at hdm
            dsimp only at hdm
            rw [hlk] at hwf
            simp only [Option.getD_some] at hwf
            cases hsl : sendLoop d mems h.chans mems with
            | none =>
                rw [hsl] at hdm
                exact Option.noConfusion hdm
            | some r =>
                obtain ⟨chans1, mems1⟩ := r
                rw [hsl] at hdm
                dsimp only at hdm
                injection hdm with hdm
                subst hdm
                simp only [lookup_setTopic_self, Option.getD_some]
                exact sendLoop_nodup hsl hwf

theorem runDispatches_order {t : String} {id : Nat} (ht : t ≠ "") :
    ∀ (ds : List Nat) (h h' : HubState),
      ((lookupTopic h.dmClients t).getD []).Nodup →
      runDispatches h t ds = some h' →
      isMember h'.dmClients t id = true →
      isMember h.dmClients t id = true ∧
      (h'.chans id).buf = (h.chans id).buf ++ ds := by
  intro ds
  induction ds with
  | nil =>
      intro h h' _ hrun hmem
      simp only [runDispatches, Option.some.injEq] at hrun
      subst hrun
      exact ⟨hmem, by simp⟩
  | cons d rest ih =>
      intro h h' hwf hrun hmem
      simp only [runDispatches] at hrun
      cases hb : broadcastOp h { dmID := t, sceneID := "", data := d } with
      | none => rw [hb] at hrun; exact Option.noConfusion hrun
      | some h1 =>
          rw [hb] at hrun
          have hwf1 := bcastDM_wf hwf hb
          obtain ⟨hmem1, hbuf1⟩ := ih h1 h' hwf1 hrun hmem
          obtain ⟨hmem0, hbufd, _⟩ := bcastDM_live ht hwf hb hmem1
          refine ⟨hmem0, ?_⟩
          rw [hbuf1, hbufd, List.append_assoc]
          rfl

theorem bcastScene_live {h : HubState} {t : String} {d : Nat} {h1 : HubState}
    {id : Nat}
    (ht : t ≠ "")
    (hwf : ((lookupTopic h.sceneClients t).getD []).Nodup)
    (hb : broadcastOp h { dmID := "", sceneID := t, data := d } = some h1)
    (hmem : isMember h1.sceneClients t id = true) :
    isMember h.sceneClients t id = true ∧
    (h1.chans id).buf = (h.chans id).buf ++ [d] ∧
    ((lookupTopic h1.sceneClients t).getD []).Nodup := by
  unfold broadcastOp at hb
  rw [broadcastDM_skip rfl] at hb
  dsimp only at hb
  unfold broadcastScene at hb
  rw [if_pos (by simpa using ht)] at hb
  cases hlk : lookupTopic h.sceneClients t with
  | none =>
      rw [hlk] at hb
      dsimp only at hb
      injection hb with hb
      subst hb
      simp [isMember, hlk] at hmem
  | some mems =>
      rw [hlk] at hb
      dsimp only at hb
      rw [hlk] at hwf
      simp only [Option.getD_some] at hwf
      cases hsl : sendLoop d mems h.chans mems with
      | none =>
          rw [hsl] at hb
          exact Option.noConfusion hb
      | some r =>
          obtain ⟨chans1, mems1⟩ := r
          rw [hsl] at hb
          dsimp only at hb
          injection hb with hb
          subst hb
          have hm1 : id ∈ mems1 := by
            have := @isMember_some (setTopic h.sceneClients t mems1) t id
              mems1 (lookup_setTopic_self h.sceneClients t mems1)
            simpa [this] using hmem
          have hm0 : id ∈ mems := sendLoop_mem_sub hsl hm1
          refine ⟨(isMember_some hlk).mpr hm0, ?_, ?_⟩
          · have := sendLoop_live hwf hsl hm0 hm1
            simp [this]
          · simp only [lookup_setTopic_self, Option.getD_some]
            exact sendLoop_nodup hsl hwf

theorem bcastScene_wf {h : HubState} {t : String} {d : Nat} {h1 : HubState}
    (hwf : ((lookupTopic h.sceneClients t).getD []).Nodup)
    (hb : broadcastOp h { dmID := "", sceneID := t, data := d } = some h1) :
    ((lookupTopic h1.sceneClients t).getD []).Nodup := by
  unfold broadcastOp at hb
  rw [broadcastDM_skip rfl] at hb
  dsimp only at hb
  unfold broadcastScene at hb
  by_cases ht : t = ""
  · rw [if_neg (by simpa using ht)] at hb
    injection hb with hb
    subst hb
    exact hwf
  · rw [if_pos (by simpa using ht)] at hb
    cases hlk : lookupTopic h.sceneClients t with
    | none =>
        rw [hlk] at hb
        dsimp only at hb
        injection hb with hb
        subst hb
        exact hwf
    | some mems =>
        rw [hlk] at hb
        dsimp only at hb
        rw [hlk] at hwf
        simp only [Option.getD_some] at hwf
        cases hsl : sendLoop d mems h.chans mems with
        | none =>
            rw [hsl] at hb
            exact Option.noConfusion hb
        | some r =>
            obtain ⟨chans1, mems1⟩ := r
            rw [hsl] at hb
            dsimp only at hb
            injection hb with hb
            subst hb
            simp only [lookup_setTopic_self, Option.getD_some]
            exact sendLoop_nodup hsl hwf

theorem runSceneDispatches_order {t : String} {id : Nat} (ht : t ≠ "") :
    ∀ (ds : List Nat) (h h' : HubState),
      ((lookupTopic h.sceneClients t).getD []).Nodup →
      runSceneDispatches h t ds = some h' →
      isMember h'.sceneClients t id = true →
      isMember h.sceneClients t id = true ∧
      (h'.chans id).buf = (h.chans id).buf ++ ds := by
  intro ds
  induction ds with
  | nil =>
      intro h h' _ hrun hmem
      simp only [runSceneDispatches, Option.some.injEq] at hrun
      subst hrun
      exact ⟨hmem, by simp⟩
  | cons d rest ih =>
      intro h h' hwf hrun hmem
      simp only [runSceneDispatches] at hrun
      cases hb : broadcastOp h { dmID := "", sceneID := t, data := d } with
      | none => rw [hb] at hrun; exact Option.noConfusion hrun
      | some h1 =>
          rw [hb] at hrun
          have hwf1 := bcastScene_wf hwf hb
          obtain ⟨hmem1, hbuf1⟩ := ih h1 h' hwf1 hrun hmem
          obtain ⟨hmem0, hbufd, _⟩ := bcastScene_live ht hwf hb hmem1
          refine ⟨hmem0, ?_⟩
          rw [hbuf1, hbufd, List.append_assoc]
          rfl


/-! ## No-op dispatch lemmas (claim C8) -/

theorem broadcastDM_noop {h : HubState} {m : BroadcastMessage}
    (hdm : m.dmID = "" ∨ lookupTopic h.dmClients m.dmID = none ∨
      lookupTopic h.dmClients m.dmID = some []) :
    broadcastDM h m = some h := by
  rcases hdm with hd | hlk | hlk
  · simp [broadcastDM, hd]
  · by_cases hd : m.dmID = ""
    · simp [broadcastDM, hd]
    · simp [broadcastDM, hd, hlk]
  · by_cases hd : m.dmID = ""
    · simp [broadcastDM, hd]
    · have hset := setTopic_lookup_eq_self _ _ _ hlk
      simp [broadcastDM, hd, hlk, sendLoop, hset]

theorem broadcastScene_noop {h : HubState} {m : BroadcastMessage}
    (hsc : m.sceneID = "" ∨ lookupTopic h.sceneClients m.sceneID = none ∨
      lookupTopic h.sceneClients m.sceneID = some []) :
    broadcastScene h m = some h := by
  rcases hsc with hd | hlk | hlk
  · simp [broadcastScene, hd]
  · by_cases hd : m.sceneID = ""
    · simp [broadcastScene, hd]
    · simp [broadcastScene, hd, hlk]
  · by_cases hd : m.sceneID = ""
    · simp [broadcastScene, hd]
    · have hset := setTopic_lookup_eq_self _ _ _ hlk
      simp [broadcastScene, hd, hlk, sendLoop, hset]

/-! ## Claim theorems -/

/-- C2 (code evaluation at the failing input): unregistering a scene-only
client whose queue holds one undelivered item removes it from the scene
member set, but the select-with-default receive the source uses as an
already-closed check consumes the buffered item instead, and the queue is
never closed (closed stays false, buffer emptied) — contradicting the
claim that Unregister closes the queue exactly once regardless of how many
undelivered items remain buffered. -/
theorem c2_unregister_buffered_eval :
    (unregisterOp hubC2 clientC2).map
      (fun h' => (isMember h'.sceneClients "s" 3, (h'.chans 3).closed,
        (h'.chans 3).buf)) = some (false, false, []) := rfl

/-- C3 (code evaluation at the failing input): from the freshly created
hub, register client 1 under DM d and scene s (zero-capacity queue) and
client 2 under DM d; a broadcast to s evicts client 1 and closes its
queue, yet client 1 is still a member of DM d; the next broadcast to d
then hits the select send case on client 1's closed channel, which panics
(models as none), killing the whole Run loop before client 2 is served —
contradicting the claim that a failure of one connection never faults or
stalls dispatch to the others. -/
theorem c3_dispatch_closed_chan_panics :
    (runOps (initHub chansC3) (opsC3.take 3)).map
      (fun h => (isMember h.dmClients "d" 1, (h.chans 1).closed)) =
      some (true, true) ∧
    (runOps (initHub chansC3) opsC3).isNone = true := ⟨rfl, rfl⟩

/-- C4 (code evaluation at the failing input): Register and Unregister
hold the exclusive write lock, but the Broadcast case holds only the
shared read lock — the same mode GetActiveSceneUsersCount holds — and yet
broadcast eviction mutates the scene topic map (the sole saturated member
of scene s is deleted), so that map mutation is not mutually exclusive
with concurrent ActiveCount readers, contradicting the claim. -/
theorem c4_broadcast_mutates_under_read_lock :
    registerLockMode = LockMode.wlock ∧ unregisterLockMode = LockMode.wlock ∧
    broadcastLockMode = LockMode.rlock ∧ countLockMode = LockMode.rlock ∧
    hubC4.sceneClients = [("s", [1])] ∧
    (broadcastOp hubC4 msgC4).map HubState.sceneClients = some [("s", [])] :=
  ⟨rfl, rfl, rfl, rfl, rfl, rfl⟩

/-- C5: GetActiveSceneUsersCount returns 0 for a topic key absent from the
scene map, and after any finite sequence of Register/Unregister requests
on a single scene topic, run from the fresh hub, it returns the number of
distinct clients registered for that topic and not yet unregistered. -/
theorem c5_active_count (chans : Nat → ChanState) (t : String)
    (ops : List HubOp) (ht : t ≠ "")
    (hall : ∀ op ∈ ops, sceneOnlyOp t op) :
    (∀ (h0 : HubState) (u : String), lookupTopic h0.sceneClients u = none →
      getActiveSceneUsersCount h0 u = 0) ∧
    ∃ h', runOps (initHub chans) ops = some h' ∧
      getActiveSceneUsersCount h' t = (stillRegistered ops []).length := by
  constructor
  · intro h0 u hk
    simp [getActiveSceneUsersCount, hk]
  · obtain ⟨h', hrun, hinv⟩ :=
      runOps_scene_count ht ops (initHub chans) [] hall (Or.inl ⟨rfl, rfl⟩)
    refine ⟨h', hrun, ?_⟩
    rcases hinv with ⟨hnone, hacc⟩ | hsome
    · rw [hacc]
      simp [getActiveSceneUsersCount, hnone]
    · simp [getActiveSceneUsersCount, hsome]

/-- C5 witness: register clients 1 and 2 under scene s, unregister 1; the
count is the length of the expected member list. -/
theorem c5_witness :
    (∀ (h0 : HubState) (u : String), lookupTopic h0.sceneClients u = none →
      getActiveSceneUsersCount h0 u = 0) ∧
    ∃ h', runOps (initHub chansW5) opsW5 = some h' ∧
      getActiveSceneUsersCount h' "s" = (stillRegistered opsW5 []).length :=
  c5_active_count chansW5 "s" opsW5 (by decide)
    (by
      intro op hop
      simp only [opsW5, List.mem_cons, List.not_mem_nil, or_false] at hop
      rcases hop with rfl | rfl | rfl <;> exact ⟨rfl, rfl⟩)

/-- C6: Register adds the client to the member set of each non-empty topic
key it carries, leaves a category untouched when that key is empty, never
fails (it is a total function), and is idempotent: registering the same
client twice leaves the hub exactly as registering it once. -/
theorem c6_register_contract (h : HubState) (c : Client) :
    (c.dmID ≠ "" → isMember (registerOp h c).dmClients c.dmID c.id = true) ∧
    (c.dmID = "" → (registerOp h c).dmClients = h.dmClients) ∧
    (c.sceneID ≠ "" →
      isMember (registerOp h c).sceneClients c.sceneID c.id = true) ∧
    (c.sceneID = "" → (registerOp h c).sceneClients = h.sceneClients) ∧
    registerOp (registerOp h c) c = registerOp h c := by
  refine ⟨?_, ?_, ?_, ?_, registerOp_idem h c⟩
  · intro hd
    rw [registerOp_dmClients, if_neg hd]
    exact mem_addMember_self _ _ _
  · intro hd
    rw [registerOp_dmClients, if_pos hd]
  · intro hs
    rw [registerOp_sceneClients, if_neg hs]
    exact mem_addMember_self _ _ _
  · intro hs
    rw [registerOp_sceneClients, if_pos hs]

/-- C6 witness: the register contract applied to a dual-key client on the
fresh hub. -/
theorem c6_witness :
    isMember (registerOp hubW6 clientW6).dmClients "d" 1 = true ∧
    isMember (registerOp hubW6 clientW6).sceneClients "s" 1 = true ∧
    registerOp (registerOp hubW6 clientW6) clientW6 = registerOp hubW6 clientW6 :=
  ⟨(c6_register_contract hubW6 clientW6).1 (by decide),
   (c6_register_contract hubW6 clientW6).2.2.1 (by decide),
   (c6_register_contract hubW6 clientW6).2.2.2.2⟩

/-- C7: over any finite sequence of dispatches to one topic — a DM topic
or a scene topic — issued sequentially by a single caller, a subscriber
that is still a member of the topic at the end has received exactly the
dispatched payloads, appended to its outbound queue in dispatch order. -/
theorem c7_dispatch_order {t : String} {id : Nat} {ds : List Nat}
    {h h' : HubState} (ht : t ≠ "") :
    (((lookupTopic h.dmClients t).getD []).Nodup →
      runDispatches h t ds = some h' →
      isMember h'.dmClients t id = true →
      (h'.chans id).buf = (h.chans id).buf ++ ds) ∧
    (((lookupTopic h.sceneClients t).getD []).Nodup →
      runSceneDispatches h t ds = some h' →
      isMember h'.sceneClients t id = true →
      (h'.chans id).buf = (h.chans id).buf ++ ds) :=
  ⟨fun hwf hrun hlive => (runDispatches_order ht ds h h' hwf hrun hlive).2,
   fun hwf hrun hlive => (runSceneDispatches_order ht ds h h' hwf hrun hlive).2⟩

/-- C7 witness: dispatching 4 then 5 to DM topic d of hubC7 leaves
subscriber 1 with queue [4, 5], and likewise for scene topic s of
hubC7s. -/
theorem c7_witness :
    (hubC7r.chans 1).buf = (hubC7.chans 1).buf ++ [4, 5] ∧
    (hubC7sr.chans 1).buf = (hubC7s.chans 1).buf ++ [4, 5] :=
  ⟨(@c7_dispatch_order "d" 1 [4, 5] hubC7 hubC7r (by decide)).1
      (by decide) (by rfl) (by rfl),
   (@c7_dispatch_order "s" 1 [4, 5] hubC7s hubC7sr (by decide)).2
      (by decide) (by rfl) (by rfl)⟩

/-- C8: dispatching an event whose DM and scene topics are each empty,
unknown, or have an empty member set is a silent no-op: the hub state —
topic maps and every outbound queue — is returned unchanged and no panic
occurs. -/
theorem c8_dispatch_noop {h : HubState} {m : BroadcastMessage}
    (hdm : m.dmID = "" ∨ lookupTopic h.dmClients m.dmID = none ∨
      lookupTopic h.dmClients m.dmID = some [])
    (hsc : m.sceneID = "" ∨ lookupTopic h.sceneClients m.sceneID = none ∨
      lookupTopic h.sceneClients m.sceneID = some []) :
    broadcastOp h m = some h := by
  have h1 := broadcastDM_noop hdm
  unfold broadcastOp
  rw [h1]
  exact broadcastScene_noop hsc

/-- C8 witness: a dispatch to the empty DM topic d and the unknown scene
topic z of hubW8 returns the state unchanged. -/
theorem c8_witness : broadcastOp hubW8 msgW8 = some hubW8 :=
  c8_dispatch_noop (Or.inr (Or.inr (by decide))) (Or.inr (Or.inl (by decide)))

/-- C9: no step of the Hub.Run loop ever deletes a topic key: a key
present in the DM or scene map before a Register, Unregister or Broadcast
request survives it, and once a scene topic's member set is empty,
GetActiveSceneUsersCount returns 0 for it. -/
theorem c9_topic_keys_persist {h : HubState} {op : HubOp} {h' : HubState}
    (hstep : stepOp h op = some h') (t : String) :
    ((lookupTopic h.dmClients t).isSome → (lookupTopic h'.dmClients t).isSome) ∧
    ((lookupTopic h.sceneClients t).isSome →
      (lookupTopic h'.sceneClients t).isSome) ∧
    (lookupTopic h'.sceneClients t = some [] →
      getActiveSceneUsersCount h' t = 0) := by
  refine ⟨(stepOp_keys hstep t).1, (stepOp_keys hstep t).2, ?_⟩
  intro hk
  simp [getActiveSceneUsersCount, hk]

/-- C9 witness: unregistering the last member of scene topic s leaves the
key s in the map with an empty member set and a count of 0. -/
theorem c9_witness :
    (lookupTopic hubC9r.sceneClients "s").isSome = true ∧
    getActiveSceneUsersCount hubC9r "s" = 0 :=
  ⟨(@c9_topic_keys_persist hubC9 (HubOp.unreg clientC9) hubC9r
      (by rfl) "s").2.1 (by rfl),
   (@c9_topic_keys_persist hubC9 (HubOp.unreg clientC9) hubC9r
      (by rfl) "s").2.2 (by rfl)⟩

/-- C10: when the dmID names no conversation in the in-memory DM store,
the send path still returns a message populated with the fresh id, sender,
content and timestamp, replies with it and broadcasts it, while the store
is left unchanged and GetMessages for that dmID afterwards returns
nothing. -/
theorem c10_add_message_unknown (s : DMStoreState)
    (dmID senderID content freshID : String) (now : Int)
    (hnone : lookupConv s.conversations dmID = none) :
    (sendMessage s dmID senderID content freshID now).1 = s ∧
    (sendMessage s dmID senderID content freshID now).2.1 =
      { id := freshID, senderID := senderID, content := content,
        timestamp := now } ∧
    (sendMessage s dmID senderID content freshID now).2.2 =
      (dmID,
        { id := freshID, senderID := senderID, content := content,
          timestamp := now }) ∧
    getMessages (sendMessage s dmID senderID content freshID now).1 dmID = [] := by
  refine ⟨?_, ?_, ?_, ?_⟩ <;> simp [sendMessage, addMessage, getMessages, hnone]

/-- C10 witness: sending to the unknown conversation x of the empty store
replies with and broadcasts an unstored message. -/
theorem c10_witness :
    (sendMessage storeC10 "x" "alice" "hi" "m1" 5).1 = storeC10 ∧
    (sendMessage storeC10 "x" "alice" "hi" "m1" 5).2.1 =
      { id := "m1", senderID := "alice", content := "hi", timestamp := 5 } ∧
    (sendMessage storeC10 "x" "alice" "hi" "m1" 5).2.2 =
      ("x",
        { id := "m1", senderID := "alice", content := "hi",
          timestamp := 5 }) ∧
    getMessages (sendMessage storeC10 "x" "alice" "hi" "m1" 5).1 "x" = [] :=
  c10_add_message_unknown storeC10 "x" "alice" "hi" "m1" 5 rfl

end Scenyx
